import Mathlib

/-!
# Verification of `pkg/cache/cache.go`

A shallow embedding of the cache-aside lookup `GetOrSetWhenNotExists` and of
the constructor `NewCache`, followed by theorems about them.

The Redis client, the `redislock` client, the process-wide random source and
the caller's producer are collaborators outside `cache.go`.  They are taken
as parameters: each is a transition on an arbitrary world state `σ` that
yields the Go return values of the call.  The embedding threads the world
through the calls in the order the Go code makes them and records every call,
with its arguments and results, in a trace.  Go `int` and `time.Duration`
are 64-bit two's-complement integers: arithmetic on them is wrapped by
`wrapInt64`.
-/

namespace Cache

/-! ## Go values -/

/-- A Go `[]byte`; the nil slice is `none`. -/
abbrev Bytes := Option (List (Fin 256))

/-- Go `error` values that `cache.go` can tell apart or build. -/
inductive GoError where
  /-- The sentinel `redis.Nil`: key not found. -/
  | redisNil : GoError
  /-- The error of a cancelled context, `context.Canceled`. -/
  | canceled : GoError
  /-- Any other error. -/
  | other (msg : String) : GoError
  /-- The value of `errors.Wrap(cause, message)` for a non-nil `cause`. -/
  | wrap (cause : GoError) (message : String) : GoError
  deriving DecidableEq, Repr

/-- A Go `context.Context`, reduced to the value of `ctx.Err()`. -/
structure Context where
  err : Option GoError
  deriving DecidableEq, Repr

/-- A non-nil `*redislock.Lock`. -/
structure Lock where
  key : String
  token : Nat
  deriving DecidableEq, Repr

/-- Wrap an integer into the range of a signed 64-bit machine integer. -/
def wrapInt64 (x : Int) : Int := (x + 2 ^ 63) % 2 ^ 64 - 2 ^ 63

/-- The constant `time.Millisecond`, in nanoseconds. -/
def millisecond : Int := 1000000

/-- The constant `time.Second`, in nanoseconds. -/
def second : Int := 1000000000

/-- Line 15: `const lockTTLMs = 10000`. -/
def lockTTLMs : Int := 10000

/-- Line 16: `const lockRetryMs = 100`. -/
def lockRetryMs : Int := 100

/-- Line 17: `const lockMaxRetries = lockTTLMs / lockRetryMs`. -/
def lockMaxRetries : Int := lockTTLMs / lockRetryMs

/-! ## Collaborators -/

/-- The producer callback `f func() ([]byte, error)`; it may change the world. -/
abbrev Producer (σ : Type) := σ → (Bytes × Option GoError) × σ

/-- The collaborators of the cache, as transitions on the world `σ`. -/
structure Env (σ : Type) where
  /-- The call `c.rdb.Get(ctx, key).Bytes()`. -/
  rdbGet : Context → String → σ → (Bytes × Option GoError) × σ
  /-- The call `c.rdb.Set(ctx, key, data, exp).Err()`; `exp` in nanoseconds. -/
  rdbSet : Context → String → Bytes → Int → σ → Option GoError × σ
  /-- The call `c.locker.Obtain(ctx, lockKey, ttl, opts)` with the lock TTL,
  the linear backoff and the retry limit of `opts`. -/
  obtain : Context → String → Int → Int → Int → σ → (Option Lock × Option GoError) × σ
  /-- The call `lock.Release(ctx)`. -/
  release : Context → Lock → σ → Option GoError × σ
  /-- The value drawn by `rand.Intn(n)` for a positive `n`. -/
  intn : Int → σ → Int × σ

/-- One call made by `GetOrSetWhenNotExists`, with its arguments and results. -/
inductive Event where
  | keyMutexLock (key : String)
  | keyMutexUnlock (key : String)
  | rdbGet (key : String) (data : Bytes) (err : Option GoError)
  | warnGet (key : String) (err : GoError)
  | obtain (lockKey : String) (ttl backoff maxRetries : Int)
      (lock : Option Lock) (err : Option GoError)
  | warnObtain (lockKey : String) (err : GoError)
  | release (lock : Lock) (err : Option GoError)
  | producer (data : Bytes) (err : Option GoError)
  | randIntn (n : Int) (r : Int)
  | rdbSet (key : String) (data : Bytes) (exp : Int) (err : Option GoError)
  deriving DecidableEq, Repr

/-- How a Go call ends: it returns `(data, err)` or it panics. -/
inductive Outcome where
  | returned (data : Bytes) (err : Option GoError)
  | panicked (msg : String)
  deriving DecidableEq, Repr

/-- The part of a call executed so far: outcome, world and calls made. -/
structure Step (σ : Type) where
  outcome : Outcome
  world : σ
  trace : List Event

/-! ## The cache -/

/-- The struct `cache` (lines 39-46).  The Redis and lock clients are
represented by the address they were built for, the map of per-key mutexes
by its key set. -/
structure cache where
  redisAddress : String
  minTimeoutSec : Int
  maxTimeoutSec : Int
  keyMutexes : List String
  deriving DecidableEq, Repr

/-- Lines 25-37: `NewCache` stores its arguments and an empty mutex map.  It
has no error result and no check of the timeouts. -/
def NewCache (minTimeoutSec maxTimeoutSec : Int) (redisAddress : String) : cache :=
  { redisAddress := redisAddress
    minTimeoutSec := minTimeoutSec
    maxTimeoutSec := maxTimeoutSec
    keyMutexes := [] }

/-- Lines 49-55: look the key up in `c.keyMutexes`, registering it if absent. -/
def registerKey (c : cache) (key : String) : cache :=
  if key ∈ c.keyMutexes then c else { c with keyMutexes := key :: c.keyMutexes }

/-- Line 91, left operand of `+`: the argument handed to `rand.Intn`. -/
def drawRange (c : cache) : Int := wrapInt64 (c.maxTimeoutSec - c.minTimeoutSec)

/-- Line 91: `expSeconds := c.minTimeoutSec + r` for a drawn `r`. -/
def expSeconds (c : cache) (r : Int) : Int := wrapInt64 (c.minTimeoutSec + r)

/-- Line 92: `time.Duration(expSeconds) * time.Second`. -/
def secondsToDuration (s : Int) : Int := wrapInt64 (s * second)

/-- Lines 86-98: call the producer, draw the expiration, write the value. -/
def produceAndStore {σ : Type} (env : Env σ) (c : cache) (ctx : Context) (key : String)
    (f : Producer σ) (w : σ) : Step σ :=
  match f w with
  | ((data, some e), w1) =>
    { outcome := .returned none (some (.wrap e "f"))
      world := w1
      trace := [.producer data (some e)] }
  | ((data, none), w1) =>
    if drawRange c ≤ 0 then
      { outcome := .panicked "invalid argument to Intn"
        world := w1
        trace := [.producer data none] }
    else
      match env.intn (drawRange c) w1 with
      | (r, w2) =>
        match env.rdbSet ctx key data (secondsToDuration (expSeconds c r)) w2 with
        | (some e, w3) =>
          { outcome := .returned none (some (.wrap e "c.rdb.Set"))
            world := w3
            trace := [.producer data none, .randIntn (drawRange c) r,
              .rdbSet key data (secondsToDuration (expSeconds c r)) (some e)] }
        | (none, w3) =>
          { outcome := .returned data none
            world := w3
            trace := [.producer data none, .randIntn (drawRange c) r,
              .rdbSet key data (secondsToDuration (expSeconds c r)) none] }

/-- Lines 79-98, run while the lock is held: read the key again and return it
if present, otherwise produce and store. -/
def underLock {σ : Type} (env : Env σ) (c : cache) (ctx : Context) (key : String)
    (f : Producer σ) (w : σ) : Step σ :=
  match env.rdbGet ctx key w with
  | ((data, none), w1) =>
    { outcome := .returned data none, world := w1, trace := [.rdbGet key data none] }
  | ((data, some e), w1) =>
    let s := produceAndStore env c ctx key f w1
    { s with trace := .rdbGet key data (some e) :: s.trace }

/-- Lines 66-98: the miss path.  The lock is requested under `"lock:" + key`;
when one is handed out its release is deferred, so it runs after the rest of
the body, also when the body panics. -/
def missPath {σ : Type} (env : Env σ) (c : cache) (ctx : Context) (key : String)
    (f : Producer σ) (w : σ) : Step σ :=
  match env.obtain ctx ("lock:" ++ key) (lockTTLMs * millisecond)
      (lockRetryMs * millisecond) lockMaxRetries w with
  | ((lock, lerr), w1) =>
    let asked : List Event :=
      .obtain ("lock:" ++ key) (lockTTLMs * millisecond) (lockRetryMs * millisecond)
        lockMaxRetries lock lerr ::
      (match lerr with
       | some e => [.warnObtain ("lock:" ++ key) e]
       | none => [])
    match lock with
    | some l =>
      let s := underLock env c ctx key f w1
      match env.release ctx l s.world with
      | (rerr, w2) =>
        { outcome := s.outcome, world := w2, trace := asked ++ s.trace ++ [.release l rerr] }
    | none =>
      let s := produceAndStore env c ctx key f w1
      { s with trace := asked ++ s.trace }

/-- Lines 60-101: the body run under the per-key mutex. -/
def lookup {σ : Type} (env : Env σ) (c : cache) (ctx : Context) (key : String)
    (f : Producer σ) (w : σ) : Step σ :=
  match env.rdbGet ctx key w with
  | ((data, none), w1) =>
    { outcome := .returned data none, world := w1, trace := [.rdbGet key data none] }
  | ((data, some e), w1) =>
    let warned : List Event := if e ≠ .redisNil then [.warnGet key e] else []
    let s := missPath env c ctx key f w1
    { s with trace := .rdbGet key data (some e) :: (warned ++ s.trace) }

/-- The result of a whole call: outcome, cache, world and calls made. -/
structure Run (σ : Type) where
  outcome : Outcome
  c : cache
  world : σ
  trace : List Event

/-- Lines 48-102: `GetOrSetWhenNotExists`.  The key is registered, its mutex
is locked, the body runs, and the deferred unlock runs last. -/
def GetOrSetWhenNotExists {σ : Type} (env : Env σ) (c : cache) (ctx : Context)
    (key : String) (f : Producer σ) (w : σ) : Run σ :=
  let s := lookup env c ctx key f w
  { outcome := s.outcome
    c := registerKey c key
    world := s.world
    trace := .keyMutexLock key :: (s.trace ++ [.keyMutexUnlock key]) }

/-! ## Reading traces -/

/-- The event is a call of the producer. -/
def Event.isProducer : Event → Bool
  | .producer _ _ => true
  | _ => false

/-- The event is a request for the distributed lock. -/
def Event.isObtain : Event → Bool
  | .obtain _ _ _ _ _ _ => true
  | _ => false

/-- The event is a release of a distributed lock. -/
def Event.isRelease : Event → Bool
  | .release _ _ => true
  | _ => false

/-- The event is a store read. -/
def Event.isGet : Event → Bool
  | .rdbGet _ _ _ => true
  | _ => false

/-- The event is a store write. -/
def Event.isSet : Event → Bool
  | .rdbSet _ _ _ _ => true
  | _ => false

/-- The event is a lock request that hands out a lock. -/
def Event.handsLock : Event → Bool
  | .obtain _ _ _ _ (some _) _ => true
  | _ => false

/-- The event is a draw from the random source. -/
def Event.isDraw : Event → Bool
  | .randIntn _ _ => true
  | _ => false

/-! ## Calls one after another -/

/-- What `n` calls made one after another leave behind. -/
structure Runs (σ : Type) where
  outcomes : List Outcome
  c : cache
  world : σ
  trace : List Event

/-- Make `n` calls of `GetOrSetWhenNotExists` with the same key and producer,
each starting in the cache and world the previous one left: the order in
which the per-key mutex (lines 57-58) lets the bodies of concurrent calls
run. -/
def runCalls {σ : Type} (env : Env σ) (ctx : Context) (key : String) (f : Producer σ) :
    Nat → cache → σ → Runs σ
  | 0, c, w => { outcomes := [], c := c, world := w, trace := [] }
  | n + 1, c, w =>
    let r := GetOrSetWhenNotExists env c ctx key f w
    let rest := runCalls env ctx key f n r.c r.world
    { outcomes := r.outcome :: rest.outcomes
      c := rest.c
      world := rest.world
      trace := r.trace ++ rest.trace }

/-! ## Assumptions on the store -/

/-- The store answers reads of `key` from its content `view` alone, and
reads, lock traffic and the producer leave that content as it is. -/
structure StableStore {σ α : Type} (env : Env σ) (f : Producer σ) (ctx : Context)
    (key : String) (view : σ → α) : Prop where
  read_of_view : ∀ w w2, view w = view w2 →
    (env.rdbGet ctx key w).1 = (env.rdbGet ctx key w2).1
  read_keeps : ∀ w, view (env.rdbGet ctx key w).2 = view w
  obtain_keeps : ∀ lk t b n w, view (env.obtain ctx lk t b n w).2 = view w
  release_keeps : ∀ l w, view (env.release ctx l w).2 = view w
  producer_keeps : ∀ w, view (f w).2 = view w

/-- The store retains what is written under `key` and neither its reads nor
its writes fail: `holds w` is the value under `key` in world `w`, a read
returns it when there is one and misses when there is none, a write
succeeds and installs its value, and nothing else touches the entry.  The
producer always succeeds. -/
structure RetainingStore {σ : Type} (env : Env σ) (f : Producer σ) (ctx : Context)
    (key : String) (holds : σ → Option Bytes) : Prop where
  read_hit : ∀ w v, holds w = some v → (env.rdbGet ctx key w).1 = (v, none)
  read_miss : ∀ w, holds w = none → (env.rdbGet ctx key w).1.2 ≠ none
  read_keeps : ∀ w, holds (env.rdbGet ctx key w).2 = holds w
  write_ok : ∀ w d x, (env.rdbSet ctx key d x w).1 = none
  write_holds : ∀ w d x, holds (env.rdbSet ctx key d x w).2 = some d
  obtain_keeps : ∀ lk t b n w, holds (env.obtain ctx lk t b n w).2 = holds w
  release_keeps : ∀ l w, holds (env.release ctx l w).2 = holds w
  draw_keeps : ∀ n w, holds (env.intn n w).2 = holds w
  producer_keeps : ∀ w, holds (f w).2 = holds w
  producer_ok : ∀ w, (f w).1.2 = none

/-! ## An in-memory store, lock manager and random source -/

/-- A world held in memory: the store content, the answers the lock manager
will give to the coming requests, the coming raw random numbers, and the
number of times the producer has run. -/
structure MemWorld where
  store : List (String × Bytes × Int)
  locks : List (Option Lock × Option GoError)
  draws : List Int
  calls : Nat
  deriving DecidableEq, Repr

/-- The value stored under `key`, the most recent write first. -/
def MemWorld.find (w : MemWorld) (key : String) : Option Bytes :=
  (w.store.find? (fun p => p.1 == key)).map (fun p => p.2.1)

/-- Collaborators over `MemWorld`.  Every store and lock call made with a
cancelled context fails with the error of the context. -/
def memEnv : Env MemWorld where
  rdbGet ctx key w :=
    match ctx.err with
    | some e => ((none, some e), w)
    | none =>
      match w.find key with
      | some v => ((v, none), w)
      | none => ((none, some .redisNil), w)
  rdbSet ctx key data exp w :=
    match ctx.err with
    | some e => (some e, w)
    | none => (none, { w with store := (key, data, exp) :: w.store })
  obtain ctx _ _ _ _ w :=
    match ctx.err with
    | some e => ((none, some e), w)
    | none =>
      match w.locks with
      | [] => ((none, some (.other "redislock: not obtained")), w)
      | a :: rest => (a, { w with locks := rest })
  release ctx _ w := (ctx.err, w)
  intn n w :=
    match w.draws with
    | [] => (0, w)
    | d :: rest => (d % n, { w with draws := rest })

/-- A producer that counts its invocations and returns the count as bytes. -/
def countingProducer : Producer MemWorld := fun w =>
  ((some [Fin.ofNat w.calls], none), { w with calls := w.calls + 1 })

/-- A producer that counts its invocations and fails. -/
def failingProducer : Producer MemWorld := fun w =>
  ((none, some (.other "boom")), { w with calls := w.calls + 1 })

/-- A context that is not cancelled. -/
def background : Context := { err := none }

/-- A cancelled context. -/
def cancelledCtx : Context := { err := some .canceled }

/-- An empty store; the lock manager first hands out a lock, then reports
contention, then fails; three raw random numbers are queued. -/
def coldWorld : MemWorld :=
  { store := []
    locks := [(some { key := "lock:k1", token := 1 }, none),
      (none, none), (none, some (.other "redis down"))]
    draws := [7, 12, 3]
    calls := 0 }

/-- A store where `"k1"` holds the bytes `[9]`. -/
def warmWorld : MemWorld :=
  { coldWorld with store := [("k1", some [9], 6000000000)] }

/-- An empty store with a lock manager that hands out nothing. -/
def unlockedWorld : MemWorld := { coldWorld with locks := [] }

/-- The collaborators of `memEnv` with a lock manager that hands out the lock
only after another process has stored the bytes `[7]` under `"k1"`. -/
def peerEnv : Env MemWorld :=
  { memEnv with
    obtain := fun _ lockKey _ _ _ w =>
      ((some { key := lockKey, token := 2 }, none),
        { w with store := ("k1", some [7], 8000000000) :: w.store }) }

/-- The cache of the scenario: timeouts 5 and 10 seconds. -/
def validCache : cache := NewCache 5 10 "localhost:6379"

/-! ## Theorems -/

/-- C1: when the first store read of the key succeeds with value `v`, the call
returns `(v, nil)`; apart from locking and unlocking the per-key mutex that
read is the only call made, so the producer is not invoked, no lock is
requested and nothing is written. -/
theorem warm_entry_read_through {σ : Type} (env : Env σ) (c : cache) (ctx : Context)
    (key : String) (f : Producer σ) (w : σ) (v : Bytes)
    (hget : (env.rdbGet ctx key w).1 = (v, none)) :
    (GetOrSetWhenNotExists env c ctx key f w).outcome = .returned v none ∧
    (GetOrSetWhenNotExists env c ctx key f w).trace =
      [.keyMutexLock key, .rdbGet key v none, .keyMutexUnlock key] ∧
    (GetOrSetWhenNotExists env c ctx key f w).trace.countP Event.isProducer = 0 ∧
    (GetOrSetWhenNotExists env c ctx key f w).trace.countP Event.isObtain = 0 ∧
    (GetOrSetWhenNotExists env c ctx key f w).trace.countP Event.isSet = 0 := by
  rcases h : env.rdbGet ctx key w with ⟨⟨d, e⟩, w1⟩
  rw [h] at hget
  simp only [Prod.mk.injEq] at hget
  obtain ⟨rfl, rfl⟩ := hget
  simp [GetOrSetWhenNotExists, lookup, h, Event.isProducer, Event.isObtain, Event.isSet]

/-- With `0 <= min < max` in the range of a Go `int`, the subtraction on line
91 does not wrap and the argument of `rand.Intn` is positive. -/
theorem drawRange_of_valid (c : cache) (hmin : 0 ≤ c.minTimeoutSec)
    (hlt : c.minTimeoutSec < c.maxTimeoutSec) (hmax : c.maxTimeoutSec < 2 ^ 63) :
    drawRange c = c.maxTimeoutSec - c.minTimeoutSec ∧ 0 < drawRange c := by
  have h : drawRange c = c.maxTimeoutSec - c.minTimeoutSec := by
    unfold drawRange wrapInt64
    omega
  exact ⟨h, by omega⟩

/-- With `0 <= min < max` in the range of a Go `int` and a draw `r` below
`max - min`, the addition on line 91 does not wrap. -/
theorem expSeconds_of_valid (c : cache) (r : Int) (hmin : 0 ≤ c.minTimeoutSec)
    (hmax : c.maxTimeoutSec < 2 ^ 63) (hr0 : 0 ≤ r)
    (hr : r < c.maxTimeoutSec - c.minTimeoutSec) :
    expSeconds c r = c.minTimeoutSec + r := by
  unfold expSeconds wrapInt64
  omega

/-- C3: on a cold key with `0 <= min < max` (Go `int` values, so below
`2 ^ 63`), when the lock manager hands out
no lock (with or without an error), the producer returns `v` without error
and the write of `v` succeeds, the call returns `(v, nil)`; it invokes the
producer once, reads the store once, writes once (the value `v` under the
given key) and releases nothing. -/
theorem lock_unavailable_degrades {σ : Type} (env : Env σ) (c : cache) (ctx : Context)
    (key : String) (f : Producer σ) (w w1 w2 w3 w4 w5 : σ) (d0 : Bytes) (e0 : GoError)
    (lerr : Option GoError) (v : Bytes) (r : Int)
    (hmin : 0 ≤ c.minTimeoutSec) (hlt : c.minTimeoutSec < c.maxTimeoutSec)
    (hmax : c.maxTimeoutSec < 2 ^ 63)
    (hget : env.rdbGet ctx key w = ((d0, some e0), w1))
    (hlock : env.obtain ctx ("lock:" ++ key) (lockTTLMs * millisecond)
      (lockRetryMs * millisecond) lockMaxRetries w1 = ((none, lerr), w2))
    (hprod : f w2 = ((v, none), w3))
    (hdraw : env.intn (drawRange c) w3 = (r, w4))
    (hset : env.rdbSet ctx key v (secondsToDuration (expSeconds c r)) w4 = (none, w5)) :
    (GetOrSetWhenNotExists env c ctx key f w).outcome = .returned v none ∧
    (GetOrSetWhenNotExists env c ctx key f w).world = w5 ∧
    (GetOrSetWhenNotExists env c ctx key f w).trace.countP Event.isProducer = 1 ∧
    (GetOrSetWhenNotExists env c ctx key f w).trace.countP Event.isGet = 1 ∧
    (GetOrSetWhenNotExists env c ctx key f w).trace.countP Event.isSet = 1 ∧
    Event.rdbSet key v (secondsToDuration (expSeconds c r)) none
      ∈ (GetOrSetWhenNotExists env c ctx key f w).trace ∧
    (GetOrSetWhenNotExists env c ctx key f w).trace.countP Event.isRelease = 0 := by
  have hn : ¬ drawRange c ≤ 0 := by
    have := (drawRange_of_valid c hmin hlt hmax).2
    omega
  cases lerr <;> by_cases hnil : e0 = GoError.redisNil <;>
    simp [GetOrSetWhenNotExists, lookup, missPath, produceAndStore, hget, hlock, hprod,
      hdraw, hset, hn, hnil, List.countP_cons, Event.isProducer, Event.isGet, Event.isSet,
      Event.isRelease]

/-- C9: after a missed first read (any read error) and a lock handed out, a
re-read that succeeds with `v` makes the call return `(v, nil)` without
invoking the producer and without a store write; a re-read that fails, for
whatever reason, is followed by exactly one invocation of the producer. -/
theorem double_check_under_lock {σ : Type} (env : Env σ) (c : cache) (ctx : Context)
    (key : String) (f : Producer σ) (w w1 w2 : σ) (d0 : Bytes) (e0 : GoError) (l : Lock)
    (lerr : Option GoError)
    (hget : env.rdbGet ctx key w = ((d0, some e0), w1))
    (hlock : env.obtain ctx ("lock:" ++ key) (lockTTLMs * millisecond)
      (lockRetryMs * millisecond) lockMaxRetries w1 = ((some l, lerr), w2)) :
    (∀ v, (env.rdbGet ctx key w2).1 = (v, none) →
      (GetOrSetWhenNotExists env c ctx key f w).outcome = .returned v none ∧
      (GetOrSetWhenNotExists env c ctx key f w).trace.countP Event.isProducer = 0 ∧
      (GetOrSetWhenNotExists env c ctx key f w).trace.countP Event.isSet = 0) ∧
    (∀ d1 e1, (env.rdbGet ctx key w2).1 = (d1, some e1) →
      (GetOrSetWhenNotExists env c ctx key f w).trace.countP Event.isProducer = 1 ∧
      Event.producer (f (env.rdbGet ctx key w2).2).1.1 (f (env.rdbGet ctx key w2).2).1.2
        ∈ (GetOrSetWhenNotExists env c ctx key f w).trace) := by
  constructor
  · intro v hre
    rcases h2 : env.rdbGet ctx key w2 with ⟨⟨d, e⟩, w3⟩
    rw [h2] at hre
    simp only [Prod.mk.injEq] at hre
    obtain ⟨rfl, rfl⟩ := hre
    cases lerr <;> by_cases hnil : e0 = GoError.redisNil <;>
      simp [GetOrSetWhenNotExists, lookup, missPath, underLock, hget, hlock, h2, hnil,
        List.countP_cons, Event.isProducer, Event.isSet]
  · intro d1 e1 hre
    rcases h2 : env.rdbGet ctx key w2 with ⟨⟨d, e⟩, w3⟩
    rw [h2] at hre
    simp only [Prod.mk.injEq] at hre
    obtain ⟨rfl, rfl⟩ := hre
    rcases hf : f w3 with ⟨⟨pd, _ | pe⟩, w4⟩
    · by_cases hn : drawRange c ≤ 0
      · cases lerr <;> by_cases hnil : e0 = GoError.redisNil <;>
          simp [GetOrSetWhenNotExists, lookup, missPath, underLock, produceAndStore, hget,
            hlock, h2, hf, hn, hnil, List.countP_cons, Event.isProducer]
      · rcases hi : env.intn (drawRange c) w4 with ⟨r, w5⟩
        rcases hs : env.rdbSet ctx key pd (secondsToDuration (expSeconds c r)) w5
          with ⟨_ | se, w6⟩ <;>
        cases lerr <;> by_cases hnil : e0 = GoError.redisNil <;>
          simp [GetOrSetWhenNotExists, lookup, missPath, underLock, produceAndStore, hget,
            hlock, h2, hf, hn, hi, hs, hnil, List.countP_cons, Event.isProducer]
    · cases lerr <;> by_cases hnil : e0 = GoError.redisNil <;>
        simp [GetOrSetWhenNotExists, lookup, missPath, underLock, produceAndStore, hget,
          hlock, h2, hf, hnil, List.countP_cons, Event.isProducer]

/-- C5: with `0 <= min < max` (Go `int` values, so below `2 ^ 63`), whatever
the reads, the lock request, the producer and the write do, the call returns (it does not panic), and its
error is non-nil exactly when the producer was invoked and failed, or the
producer succeeded and the write failed.  In the first case the error wraps
the producer error with `"f"`, in the second it wraps the write error with
`"c.rdb.Set"`, and in both the returned bytes are nil.  Failed reads and
failed lock requests alone therefore never surface. -/
theorem only_two_failures_surface {σ : Type} (env : Env σ) (c : cache) (ctx : Context)
    (key : String) (f : Producer σ) (w : σ) (hmin : 0 ≤ c.minTimeoutSec)
    (hlt : c.minTimeoutSec < c.maxTimeoutSec) (hmax : c.maxTimeoutSec < 2 ^ 63) :
    ∃ data err, (GetOrSetWhenNotExists env c ctx key f w).outcome = .returned data err ∧
      (err ≠ none ↔
        ((∃ d e, Event.producer d (some e) ∈ (GetOrSetWhenNotExists env c ctx key f w).trace) ∨
         ((∃ d, Event.producer d none ∈ (GetOrSetWhenNotExists env c ctx key f w).trace) ∧
          ∃ d x e,
            Event.rdbSet key d x (some e)
              ∈ (GetOrSetWhenNotExists env c ctx key f w).trace))) ∧
      (err ≠ none → data = none) ∧
      (∀ d e, Event.producer d (some e) ∈ (GetOrSetWhenNotExists env c ctx key f w).trace →
        err = some (.wrap e "f")) ∧
      (∀ d x e, Event.rdbSet key d x (some e)
          ∈ (GetOrSetWhenNotExists env c ctx key f w).trace →
        err = some (.wrap e "c.rdb.Set")) := by
  have hn : ¬ drawRange c ≤ 0 := by
    have := (drawRange_of_valid c hmin hlt hmax).2
    omega
  simp only [GetOrSetWhenNotExists, lookup, missPath, underLock, produceAndStore]
  repeat' split
  all_goals first
    | omega
    | (refine ⟨_, _, rfl, ?_⟩; simp_all)

/-- Lines 86-98 neither request nor release a lock. -/
theorem produceAndStore_no_lock_traffic {σ : Type} (env : Env σ) (c : cache) (ctx : Context)
    (key : String) (f : Producer σ) (w : σ) :
    ∀ e ∈ (produceAndStore env c ctx key f w).trace,
      e.isRelease = false ∧ e.isObtain = false := by
  simp only [produceAndStore]
  repeat' split
  all_goals simp [Event.isRelease, Event.isObtain]

/-- Lines 79-98 neither request nor release a lock. -/
theorem underLock_no_lock_traffic {σ : Type} (env : Env σ) (c : cache) (ctx : Context)
    (key : String) (f : Producer σ) (w : σ) :
    ∀ e ∈ (underLock env c ctx key f w).trace,
      e.isRelease = false ∧ e.isObtain = false := by
  have hp := produceAndStore_no_lock_traffic env c ctx key f
  simp only [underLock]
  split
  · simp [Event.isRelease, Event.isObtain]
  · intro e he
    simp only [List.mem_cons] at he
    rcases he with rfl | he
    · simp [Event.isRelease, Event.isObtain]
    · exact hp _ e he

/-- A trace without lock traffic holds no release. -/
theorem countP_isRelease_of_quiet (t : List Event)
    (h : ∀ e ∈ t, e.isRelease = false ∧ e.isObtain = false) :
    t.countP Event.isRelease = 0 := by
  rw [List.countP_eq_zero]
  intro e he
  simp [(h e he).1]

/-- C10: in every execution the lock is requested only under `"lock:" + key`.
When a lock is handed out, the trace ends with the release of that lock
followed by the unlock of the per-key mutex, and holds no other release: the
lock is released exactly once, after every read, producer call and write of
the execution, on every exit path (a panic included).  When no lock is
handed out, nothing is released. -/
theorem lock_released_exactly_once {σ : Type} (env : Env σ) (c : cache) (ctx : Context)
    (key : String) (f : Producer σ) (w : σ) :
    (∀ lk t b n l e,
      Event.obtain lk t b n l e ∈ (GetOrSetWhenNotExists env c ctx key f w).trace →
      lk = "lock:" ++ key) ∧
    (∀ lk t b n l e,
      Event.obtain lk t b n (some l) e ∈ (GetOrSetWhenNotExists env c ctx key f w).trace →
      ∃ pre rerr,
        (GetOrSetWhenNotExists env c ctx key f w).trace
          = pre ++ [.release l rerr, .keyMutexUnlock key] ∧
        pre.countP Event.isRelease = 0) ∧
    ((GetOrSetWhenNotExists env c ctx key f w).trace.countP Event.handsLock = 0 →
      (GetOrSetWhenNotExists env c ctx key f w).trace.countP Event.isRelease = 0) := by
  rcases hget : env.rdbGet ctx key w with ⟨⟨d0, _ | e0⟩, w1⟩
  · simp [GetOrSetWhenNotExists, lookup, hget, List.countP_cons, Event.isRelease]
  · rcases hlock : env.obtain ctx ("lock:" ++ key) (lockTTLMs * millisecond)
      (lockRetryMs * millisecond) lockMaxRetries w1 with ⟨⟨_ | l0, lerr⟩, w2⟩
    · have hq := produceAndStore_no_lock_traffic env c ctx key f w2
      have hz := countP_isRelease_of_quiet _ hq
      have hobt : ∀ lk t b n l e,
          Event.obtain lk t b n l e ∉ (produceAndStore env c ctx key f w2).trace := by
        intro lk t b n l e hmem
        have := (hq _ hmem).2
        simp [Event.isObtain] at this
      refine ⟨?_, ?_, ?_⟩
      · intro lk t b n l e hmem
        cases lerr <;> by_cases hnil : e0 = GoError.redisNil <;>
          simp [GetOrSetWhenNotExists, lookup, missPath, hget, hlock, hnil, hobt] at hmem <;>
          exact hmem.1
      · intro lk t b n l e hmem
        cases lerr <;> by_cases hnil : e0 = GoError.redisNil <;>
          simp [GetOrSetWhenNotExists, lookup, missPath, hget, hlock, hnil, hobt] at hmem
      · intro _
        cases lerr <;> by_cases hnil : e0 = GoError.redisNil <;>
          simp [GetOrSetWhenNotExists, lookup, missPath, hget, hlock, hnil, hz,
            List.countP_cons, Event.isRelease]
    · have hq := underLock_no_lock_traffic env c ctx key f w2
      have hz := countP_isRelease_of_quiet _ hq
      have hobt : ∀ lk t b n l e,
          Event.obtain lk t b n l e ∉ (underLock env c ctx key f w2).trace := by
        intro lk t b n l e hmem
        have := (hq _ hmem).2
        simp [Event.isObtain] at this
      refine ⟨?_, ?_, ?_⟩
      · intro lk t b n l e hmem
        cases lerr <;> by_cases hnil : e0 = GoError.redisNil <;>
          simp [GetOrSetWhenNotExists, lookup, missPath, hget, hlock, hnil, hobt] at hmem <;>
          exact hmem.1
      · intro lk t b n l e hmem
        have hl : l = l0 := by
          cases lerr <;> by_cases hnil : e0 = GoError.redisNil <;>
            simp [GetOrSetWhenNotExists, lookup, missPath, hget, hlock, hnil, hobt] at hmem <;>
            exact hmem.2.2.2.2.1
        subst hl
        refine ⟨.keyMutexLock key :: .rdbGet key d0 (some e0) ::
          ((if e0 ≠ GoError.redisNil then [Event.warnGet key e0] else []) ++
            (Event.obtain ("lock:" ++ key) (lockTTLMs * millisecond)
              (lockRetryMs * millisecond) lockMaxRetries (some l) lerr ::
              (match lerr with
               | some e => [Event.warnObtain ("lock:" ++ key) e]
               | none => [])) ++ (underLock env c ctx key f w2).trace),
          (env.release ctx l (underLock env c ctx key f w2).world).1, ?_, ?_⟩
        · simp [GetOrSetWhenNotExists, lookup, missPath, hget, hlock]
          cases lerr <;> rfl
        · cases lerr <;> by_cases hnil : e0 = GoError.redisNil <;>
            simp [hnil, hz, List.countP_cons, Event.isRelease]
      · intro hno
        exfalso
        cases lerr <;> by_cases hnil : e0 = GoError.redisNil <;>
          simp [GetOrSetWhenNotExists, lookup, missPath, hget, hlock, hnil,
            List.countP_cons, Event.handsLock] at hno

/-- Every store write of a call is made under the given key and carries the
duration computed on lines 91-92 from a draw of the same call. -/
theorem write_follows_draw {σ : Type} (env : Env σ) (c : cache) (ctx : Context)
    (key : String) (f : Producer σ) (w : σ) :
    ∀ k d x e, Event.rdbSet k d x e ∈ (GetOrSetWhenNotExists env c ctx key f w).trace →
      k = key ∧ ∃ r, Event.randIntn (drawRange c) r
          ∈ (GetOrSetWhenNotExists env c ctx key f w).trace ∧
        x = secondsToDuration (expSeconds c r) := by
  simp only [GetOrSetWhenNotExists, lookup, missPath, underLock, produceAndStore]
  repeat' split
  all_goals simp_all

/-- When `max` is at most 9223372037 the conversion on line 92 of a number of
seconds below `max` does not wrap. -/
theorem secondsToDuration_exact (s hi : Int) (h0 : 0 ≤ s) (hs : s < hi)
    (hhi : hi ≤ 9223372037) : secondsToDuration s = s * second := by
  unfold secondsToDuration wrapInt64 second
  omega

/-- C6: with `0 <= min < max` (Go `int` values, so below `2 ^ 63`) and every
draw `r` of the call within the range of `rand.Intn(max - min)`, that is `0 <= r < max - min`, each store
write of `GetOrSetWhenNotExists` is made under the given key with the
expiration `min + r` seconds for a draw `r` of the call, converted to a
duration as on line 92, and `min <= min + r < max`.  The conversion is exact
when `max` is at most 9223372037. -/
theorem ttl_jitter_bounds {σ : Type} (env : Env σ) (c : cache) (ctx : Context)
    (key : String) (f : Producer σ) (w : σ) (hmin : 0 ≤ c.minTimeoutSec)
    (hlt : c.minTimeoutSec < c.maxTimeoutSec) (hmax : c.maxTimeoutSec < 2 ^ 63)
    (hrand : ∀ n r, Event.randIntn n r ∈ (GetOrSetWhenNotExists env c ctx key f w).trace →
      0 ≤ r ∧ r < n) :
    ∀ k d x e, Event.rdbSet k d x e ∈ (GetOrSetWhenNotExists env c ctx key f w).trace →
      k = key ∧
      ∃ r, Event.randIntn (c.maxTimeoutSec - c.minTimeoutSec) r
          ∈ (GetOrSetWhenNotExists env c ctx key f w).trace ∧
        expSeconds c r = c.minTimeoutSec + r ∧
        x = secondsToDuration (c.minTimeoutSec + r) ∧
        c.minTimeoutSec ≤ c.minTimeoutSec + r ∧
        c.minTimeoutSec + r < c.maxTimeoutSec ∧
        (c.maxTimeoutSec ≤ 9223372037 → x = (c.minTimeoutSec + r) * second) := by
  intro k d x e hmem
  obtain ⟨hk, r, hr, hx⟩ := write_follows_draw env c ctx key f w k d x e hmem
  have hrange := (drawRange_of_valid c hmin hlt hmax).1
  rw [hrange] at hr
  obtain ⟨hr0, hr1⟩ := hrand _ _ hr
  have hexp := expSeconds_of_valid c r hmin hmax hr0 hr1
  rw [hexp] at hx
  refine ⟨hk, r, hr, hexp, hx, by omega, by omega, ?_⟩
  intro hsmall
  rw [hx]
  exact secondsToDuration_exact _ c.maxTimeoutSec (by omega) (by omega) hsmall

/-- What lines 86-98 do when every store write made with the context fails
with the cancellation error. -/
theorem produceAndStore_cancelled {σ : Type} (env : Env σ) (c : cache) (ctx : Context)
    (key : String) (f : Producer σ) (w : σ) (hpos : 0 < drawRange c)
    (hset : ∀ k d x w, (env.rdbSet ctx k d x w).1 = some GoError.canceled) :
    (produceAndStore env c ctx key f w).trace.countP Event.isProducer = 1 ∧
    (∀ d e, Event.producer d (some e) ∈ (produceAndStore env c ctx key f w).trace →
      (produceAndStore env c ctx key f w).outcome = .returned none (some (.wrap e "f")) ∧
      (produceAndStore env c ctx key f w).trace.countP Event.isSet = 0) ∧
    (∀ d, Event.producer d none ∈ (produceAndStore env c ctx key f w).trace →
      (produceAndStore env c ctx key f w).outcome
        = .returned none (some (.wrap .canceled "c.rdb.Set"))) := by
  have hn : ¬ drawRange c ≤ 0 := by omega
  rcases hf : f w with ⟨⟨d, _ | e⟩, w1⟩
  · rcases hi : env.intn (drawRange c) w1 with ⟨r, w2⟩
    have h := hset key d (secondsToDuration (expSeconds c r)) w2
    rcases hs : env.rdbSet ctx key d (secondsToDuration (expSeconds c r)) w2 with ⟨se, w3⟩
    rw [hs] at h
    simp only at h
    subst h
    simp [produceAndStore, hf, hn, hi, hs, List.countP_cons, Event.isProducer]
  · simp [produceAndStore, hf, List.countP_cons, Event.isProducer, Event.isSet]

/-- C8 (as amended): with `0 <= min < max` (Go `int` values, so below
`2 ^ 63`) and a context for which every
store read, lock request and store write fails with the cancellation error,
the call does not return early: it invokes the producer exactly once.  If the
producer fails with `e` the call returns nil bytes and `e` wrapped with
`"f"`, without a write; if the producer succeeds the write fails and the call
returns nil bytes and the cancellation error wrapped with `"c.rdb.Set"`.  A
lock is released exactly when the failed request handed one out. -/
theorem cancelled_context_still_produces {σ : Type} (env : Env σ) (c : cache)
    (ctx : Context) (key : String) (f : Producer σ) (w : σ)
    (hmin : 0 ≤ c.minTimeoutSec) (hlt : c.minTimeoutSec < c.maxTimeoutSec)
    (hmax : c.maxTimeoutSec < 2 ^ 63)
    (hget : ∀ k w, (env.rdbGet ctx k w).1.2 = some GoError.canceled)
    (hobt : ∀ lk t b n w, (env.obtain ctx lk t b n w).1.2 = some GoError.canceled)
    (hset : ∀ k d x w, (env.rdbSet ctx k d x w).1 = some GoError.canceled) :
    (GetOrSetWhenNotExists env c ctx key f w).trace.countP Event.isProducer = 1 ∧
    (∀ d e, Event.producer d (some e) ∈ (GetOrSetWhenNotExists env c ctx key f w).trace →
      (GetOrSetWhenNotExists env c ctx key f w).outcome
        = .returned none (some (.wrap e "f")) ∧
      (GetOrSetWhenNotExists env c ctx key f w).trace.countP Event.isSet = 0) ∧
    (∀ d, Event.producer d none ∈ (GetOrSetWhenNotExists env c ctx key f w).trace →
      (GetOrSetWhenNotExists env c ctx key f w).outcome
        = .returned none (some (.wrap .canceled "c.rdb.Set"))) ∧
    (GetOrSetWhenNotExists env c ctx key f w).trace.countP Event.isRelease
      = (GetOrSetWhenNotExists env c ctx key f w).trace.countP Event.handsLock := by
  have hpos := (drawRange_of_valid c hmin hlt hmax).2
  have h1 := hget key w
  rcases hg : env.rdbGet ctx key w with ⟨⟨d0, e0⟩, w1⟩
  rw [hg] at h1
  simp only at h1
  subst h1
  have h2 := hobt ("lock:" ++ key) (lockTTLMs * millisecond) (lockRetryMs * millisecond)
    lockMaxRetries w1
  rcases ho : env.obtain ctx ("lock:" ++ key) (lockTTLMs * millisecond)
    (lockRetryMs * millisecond) lockMaxRetries w1 with ⟨⟨lock, lerr⟩, w2⟩
  rw [ho] at h2
  simp only at h2
  subst h2
  cases lock with
  | none =>
    obtain ⟨hc, hfail, hok⟩ := produceAndStore_cancelled env c ctx key f w2 hpos hset
    have hz := countP_isRelease_of_quiet _ (produceAndStore_no_lock_traffic env c ctx key f w2)
    have hh : (produceAndStore env c ctx key f w2).trace.countP Event.handsLock = 0 := by
      rw [List.countP_eq_zero]
      intro e he
      have := (produceAndStore_no_lock_traffic env c ctx key f w2 e he).2
      cases e <;> simp_all [Event.handsLock, Event.isObtain]
    refine ⟨?_, ?_, ?_, ?_⟩
    · simp [GetOrSetWhenNotExists, lookup, missPath, hg, ho, hc, List.countP_cons,
        Event.isProducer]
    · intro d e hmem
      have hm : Event.producer d (some e) ∈ (produceAndStore env c ctx key f w2).trace := by
        simpa [GetOrSetWhenNotExists, lookup, missPath, hg, ho] using hmem
      obtain ⟨ho1, ho2⟩ := hfail d e hm
      simp [GetOrSetWhenNotExists, lookup, missPath, hg, ho, ho1, ho2, List.countP_cons,
        Event.isSet]
    · intro d hmem
      have hm : Event.producer d none ∈ (produceAndStore env c ctx key f w2).trace := by
        simpa [GetOrSetWhenNotExists, lookup, missPath, hg, ho] using hmem
      simp [GetOrSetWhenNotExists, lookup, missPath, hg, ho, hok d hm]
    · simp [GetOrSetWhenNotExists, lookup, missPath, hg, ho, hz, hh, List.countP_cons,
        Event.isRelease, Event.handsLock]
  | some l =>
    have h3 := hget key w2
    rcases hg2 : env.rdbGet ctx key w2 with ⟨⟨d1, e1⟩, w3⟩
    rw [hg2] at h3
    simp only at h3
    subst h3
    obtain ⟨hc, hfail, hok⟩ := produceAndStore_cancelled env c ctx key f w3 hpos hset
    have hz := countP_isRelease_of_quiet _ (produceAndStore_no_lock_traffic env c ctx key f w3)
    have hh : (produceAndStore env c ctx key f w3).trace.countP Event.handsLock = 0 := by
      rw [List.countP_eq_zero]
      intro e he
      have := (produceAndStore_no_lock_traffic env c ctx key f w3 e he).2
      cases e <;> simp_all [Event.handsLock, Event.isObtain]
    refine ⟨?_, ?_, ?_, ?_⟩
    · simp [GetOrSetWhenNotExists, lookup, missPath, underLock, hg, ho, hg2, hc,
        List.countP_cons, Event.isProducer]
    · intro d e hmem
      have hm : Event.producer d (some e) ∈ (produceAndStore env c ctx key f w3).trace := by
        simpa [GetOrSetWhenNotExists, lookup, missPath, underLock, hg, ho, hg2] using hmem
      obtain ⟨ho1, ho2⟩ := hfail d e hm
      simp [GetOrSetWhenNotExists, lookup, missPath, underLock, hg, ho, hg2, ho1, ho2,
        List.countP_cons, Event.isSet]
    · intro d hmem
      have hm : Event.producer d none ∈ (produceAndStore env c ctx key f w3).trace := by
        simpa [GetOrSetWhenNotExists, lookup, missPath, underLock, hg, ho, hg2] using hmem
      simp [GetOrSetWhenNotExists, lookup, missPath, underLock, hg, ho, hg2, hok d hm]
    · simp [GetOrSetWhenNotExists, lookup, missPath, underLock, hg, ho, hg2, hz, hh,
        List.countP_cons, Event.isRelease, Event.handsLock]

/-- C7 (as amended): `NewCache` checks nothing and cannot fail.  For every
configuration, also one with `max <= min`, it returns a cache that holds the
two timeouts as given.  When `max <= min` and `max - min` is within the
range of a Go `int`, the argument of `rand.Intn` on that cache is zero or
negative, and every call in which the producer is invoked and succeeds
reaches the draw and panics there, before any draw or store write. -/
theorem newCache_accepts_any_range {σ : Type} (env : Env σ) (ctx : Context)
    (key : String) (f : Producer σ) (w : σ) (minT maxT : Int) (addr : String)
    (hge : maxT ≤ minT) (hwrap : -(2 ^ 63) ≤ maxT - minT) :
    NewCache minT maxT addr =
      { redisAddress := addr, minTimeoutSec := minT, maxTimeoutSec := maxT,
        keyMutexes := [] } ∧
    drawRange (NewCache minT maxT addr) = maxT - minT ∧
    drawRange (NewCache minT maxT addr) ≤ 0 ∧
    (∀ d, Event.producer d none
        ∈ (GetOrSetWhenNotExists env (NewCache minT maxT addr) ctx key f w).trace →
      (GetOrSetWhenNotExists env (NewCache minT maxT addr) ctx key f w).outcome
        = .panicked "invalid argument to Intn" ∧
      (GetOrSetWhenNotExists env (NewCache minT maxT addr) ctx key f w).trace.countP
        Event.isDraw = 0 ∧
      (GetOrSetWhenNotExists env (NewCache minT maxT addr) ctx key f w).trace.countP
        Event.isSet = 0) := by
  have hd : drawRange (NewCache minT maxT addr) = maxT - minT := by
    simp only [drawRange, NewCache, wrapInt64]
    omega
  have hn : drawRange (NewCache minT maxT addr) ≤ 0 := by omega
  refine ⟨rfl, hd, hn, ?_⟩
  simp only [GetOrSetWhenNotExists, lookup, missPath, underLock, produceAndStore]
  repeat' split
  all_goals first
    | omega
    | simp_all [List.countP_cons, Event.isDraw, Event.isSet]

/-- C7 (counterexample): `NewCache 10 5` does not fail.  It returns a cache
with `min = 10` and `max = 5`, and the first call on it for a cold key with a
succeeding producer reaches `rand.Intn(-5)` and panics. -/
theorem newCache_inverted_range_constructed :
    NewCache 10 5 "localhost:6379" =
      { redisAddress := "localhost:6379", minTimeoutSec := 10, maxTimeoutSec := 5,
        keyMutexes := [] } ∧
    drawRange (NewCache 10 5 "localhost:6379") = -5 ∧
    (GetOrSetWhenNotExists memEnv (NewCache 10 5 "localhost:6379") background "k1"
      countingProducer unlockedWorld).trace =
      [.keyMutexLock "k1", .rdbGet "k1" none (some .redisNil),
       .obtain "lock:k1" 10000000000 100000000 100 none
         (some (.other "redislock: not obtained")),
       .warnObtain "lock:k1" (.other "redislock: not obtained"),
       .producer (some [0]) none, .keyMutexUnlock "k1"] ∧
    (GetOrSetWhenNotExists memEnv (NewCache 10 5 "localhost:6379") background "k1"
      countingProducer unlockedWorld).outcome = .panicked "invalid argument to Intn" := by
  decide

/-- C8 (counterexample): with a cancelled context, for which the read and the
lock request fail with the cancellation error, and a producer that fails
with `boom`, the call invokes the producer and returns `boom` wrapped with
`"f"`, which is not the cancellation error. -/
theorem cancelled_call_returns_producer_error :
    cancelledCtx.err = some .canceled ∧
    (GetOrSetWhenNotExists memEnv (NewCache 5 10 "localhost:6379") cancelledCtx "k1"
      failingProducer coldWorld).trace =
      [.keyMutexLock "k1", .rdbGet "k1" none (some .canceled), .warnGet "k1" .canceled,
       .obtain "lock:k1" 10000000000 100000000 100 none (some .canceled),
       .warnObtain "lock:k1" .canceled,
       .producer none (some (.other "boom")), .keyMutexUnlock "k1"] ∧
    (GetOrSetWhenNotExists memEnv (NewCache 5 10 "localhost:6379") cancelledCtx "k1"
      failingProducer coldWorld).outcome
      = .returned none (some (.wrap (.other "boom") "f")) ∧
    (GetOrSetWhenNotExists memEnv (NewCache 5 10 "localhost:6379") cancelledCtx "k1"
      failingProducer coldWorld).outcome ≠ .returned none (some .canceled) := by
  decide

/-- Lines 86-98 invoke the producer exactly once. -/
theorem produceAndStore_invokes_once {σ : Type} (env : Env σ) (c : cache) (ctx : Context)
    (key : String) (f : Producer σ) (w : σ) :
    (produceAndStore env c ctx key f w).trace.countP Event.isProducer = 1 := by
  simp only [produceAndStore]
  repeat' split
  all_goals simp [List.countP_cons, Event.isProducer]

/-- A call started where every read of the key misses reads once or twice,
misses, and invokes the producer exactly once. -/
theorem miss_invokes_producer {σ α : Type} (env : Env σ) (c : cache) (ctx : Context)
    (key : String) (f f2 : Producer σ) (view : σ → α) (hs : StableStore env f ctx key view)
    (w0 w : σ) (d0 : Bytes) (e0 : GoError)
    (hview : view w = view w0)
    (hmiss : (env.rdbGet ctx key w0).1 = (d0, some e0)) :
    (∃ rest, (GetOrSetWhenNotExists env c ctx key f2 w).trace
      = .keyMutexLock key :: .rdbGet key d0 (some e0) :: rest) ∧
    (GetOrSetWhenNotExists env c ctx key f2 w).trace.countP Event.isProducer = 1 := by
  have h1 : (env.rdbGet ctx key w).1 = (d0, some e0) := by
    rw [hs.read_of_view w w0 hview, hmiss]
  have hv1 : view (env.rdbGet ctx key w).2 = view w0 := by
    rw [hs.read_keeps, hview]
  rcases hg : env.rdbGet ctx key w with ⟨⟨d, e⟩, w1⟩
  rw [hg] at h1 hv1
  simp only [Prod.mk.injEq] at h1
  obtain ⟨rfl, rfl⟩ := h1
  simp only at hv1
  have hv2 := hs.obtain_keeps ("lock:" ++ key) (lockTTLMs * millisecond)
    (lockRetryMs * millisecond) lockMaxRetries w1
  rcases ho : env.obtain ctx ("lock:" ++ key) (lockTTLMs * millisecond)
    (lockRetryMs * millisecond) lockMaxRetries w1 with ⟨⟨lock, lerr⟩, w2⟩
  rw [ho] at hv2
  simp only at hv2
  cases lock with
  | none =>
    have hc := produceAndStore_invokes_once env c ctx key f2 w2
    refine ⟨⟨_, by simp [GetOrSetWhenNotExists, lookup, hg]; rfl⟩, ?_⟩
    cases lerr <;> by_cases hnil : e0 = GoError.redisNil <;>
      simp [GetOrSetWhenNotExists, lookup, missPath, hg, ho, hc, hnil, List.countP_cons,
        Event.isProducer]
  | some l =>
    have h3 : (env.rdbGet ctx key w2).1 = (d, some e0) := by
      rw [hs.read_of_view w2 w0 (by rw [hv2, hv1]), hmiss]
    rcases hg2 : env.rdbGet ctx key w2 with ⟨⟨d1, e1⟩, w3⟩
    rw [hg2] at h3
    simp only [Prod.mk.injEq] at h3
    obtain ⟨rfl, rfl⟩ := h3
    have hc := produceAndStore_invokes_once env c ctx key f2 w3
    refine ⟨⟨_, by simp [GetOrSetWhenNotExists, lookup, hg]; rfl⟩, ?_⟩
    cases lerr <;> by_cases hnil : e0 = GoError.redisNil <;>
      simp [GetOrSetWhenNotExists, lookup, missPath, underLock, hg, ho, hg2, hc, hnil,
        List.countP_cons, Event.isProducer]

/-- When lines 86-98 record a failed producer call, they end with its error
wrapped with `"f"`, in the world the producer left, with no other call. -/
theorem produceAndStore_failed {σ : Type} (env : Env σ) (c : cache) (ctx : Context)
    (key : String) (f : Producer σ) (w : σ) (d : Bytes) (e : GoError) :
    Event.producer d (some e) ∈ (produceAndStore env c ctx key f w).trace →
    (produceAndStore env c ctx key f w).outcome = .returned none (some (.wrap e "f")) ∧
    (produceAndStore env c ctx key f w).world = (f w).2 ∧
    (produceAndStore env c ctx key f w).trace = [.producer d (some e)] := by
  simp only [produceAndStore]
  repeat' split
  all_goals simp_all

/-- C4: whenever the producer is invoked and returns an error `e`, the call
returns nil bytes and `e` wrapped with `"f"`, and issues no store write.  On
a store that answers reads of the key from its content alone, with reads,
lock traffic and the producer leaving that content alone, the call leaves the
content as it found it, and any later call for the same key started there
misses on its first read and invokes its producer, exactly once. -/
theorem producer_failure_no_write {σ α : Type} (env : Env σ) (c : cache) (ctx : Context)
    (key : String) (f : Producer σ) (w : σ) (d : Bytes) (e : GoError)
    (hfail : Event.producer d (some e) ∈ (GetOrSetWhenNotExists env c ctx key f w).trace) :
    (GetOrSetWhenNotExists env c ctx key f w).outcome
      = .returned none (some (.wrap e "f")) ∧
    (GetOrSetWhenNotExists env c ctx key f w).trace.countP Event.isSet = 0 ∧
    (∀ view : σ → α, StableStore env f ctx key view →
      view (GetOrSetWhenNotExists env c ctx key f w).world = view w ∧
      ∀ f2 : Producer σ,
        (∃ d0 e0 rest,
          (GetOrSetWhenNotExists env (GetOrSetWhenNotExists env c ctx key f w).c ctx key f2
            (GetOrSetWhenNotExists env c ctx key f w).world).trace
            = .keyMutexLock key :: .rdbGet key d0 (some e0) :: rest) ∧
        (GetOrSetWhenNotExists env (GetOrSetWhenNotExists env c ctx key f w).c ctx key f2
          (GetOrSetWhenNotExists env c ctx key f w).world).trace.countP
            Event.isProducer = 1) := by
  rcases hg : env.rdbGet ctx key w with ⟨⟨d0, _ | e0⟩, w1⟩
  · simp [GetOrSetWhenNotExists, lookup, hg] at hfail
  · rcases ho : env.obtain ctx ("lock:" ++ key) (lockTTLMs * millisecond)
      (lockRetryMs * millisecond) lockMaxRetries w1 with ⟨⟨lock, lerr⟩, w2⟩
    have hmiss : (env.rdbGet ctx key w).1 = (d0, some e0) := by rw [hg]
    cases lock with
    | none =>
      have hm : Event.producer d (some e) ∈ (produceAndStore env c ctx key f w2).trace := by
        cases lerr <;> by_cases hnil : e0 = GoError.redisNil <;>
          simpa [GetOrSetWhenNotExists, lookup, missPath, hg, ho, hnil] using hfail
      obtain ⟨hout, hworld, htrace⟩ := produceAndStore_failed env c ctx key f w2 d e hm
      have hw : (GetOrSetWhenNotExists env c ctx key f w).world = (f w2).2 := by
        simp [GetOrSetWhenNotExists, lookup, missPath, hg, ho, hworld]
      refine ⟨?_, ?_, ?_⟩
      · simp [GetOrSetWhenNotExists, lookup, missPath, hg, ho, hout]
      · cases lerr <;> by_cases hnil : e0 = GoError.redisNil <;>
          simp [GetOrSetWhenNotExists, lookup, missPath, hg, ho, hnil, htrace,
            List.countP_cons, Event.isSet]
      · intro view hs
        have hv : view (GetOrSetWhenNotExists env c ctx key f w).world = view w := by
          rw [hw, hs.producer_keeps]
          have h2 := hs.obtain_keeps ("lock:" ++ key) (lockTTLMs * millisecond)
            (lockRetryMs * millisecond) lockMaxRetries w1
          have h1 := hs.read_keeps w
          rw [ho] at h2
          rw [hg] at h1
          exact h2.trans h1
        refine ⟨hv, fun f2 => ?_⟩
        obtain ⟨⟨rest, hr⟩, hc⟩ := miss_invokes_producer env
          (GetOrSetWhenNotExists env c ctx key f w).c ctx key f f2 view hs w
          (GetOrSetWhenNotExists env c ctx key f w).world d0 e0 hv hmiss
        exact ⟨⟨d0, e0, rest, hr⟩, hc⟩
    | some l =>
      rcases hg2 : env.rdbGet ctx key w2 with ⟨⟨d1, _ | e1⟩, w3⟩
      · exfalso
        cases lerr <;> by_cases hnil : e0 = GoError.redisNil <;>
          simp [GetOrSetWhenNotExists, lookup, missPath, underLock, hg, ho, hg2, hnil]
            at hfail
      · have hm : Event.producer d (some e)
            ∈ (produceAndStore env c ctx key f w3).trace := by
          cases lerr <;> by_cases hnil : e0 = GoError.redisNil <;>
            simpa [GetOrSetWhenNotExists, lookup, missPath, underLock, hg, ho, hg2, hnil]
              using hfail
        obtain ⟨hout, hworld, htrace⟩ := produceAndStore_failed env c ctx key f w3 d e hm
        have hw : (GetOrSetWhenNotExists env c ctx key f w).world
            = (env.release ctx l (f w3).2).2 := by
          simp [GetOrSetWhenNotExists, lookup, missPath, underLock, hg, ho, hg2, hworld]
        refine ⟨?_, ?_, ?_⟩
        · simp [GetOrSetWhenNotExists, lookup, missPath, underLock, hg, ho, hg2, hout]
        · cases lerr <;> by_cases hnil : e0 = GoError.redisNil <;>
            simp [GetOrSetWhenNotExists, lookup, missPath, underLock, hg, ho, hg2, hnil,
              htrace, List.countP_cons, Event.isSet]
        · intro view hs
          have hv : view (GetOrSetWhenNotExists env c ctx key f w).world = view w := by
            rw [hw, hs.release_keeps, hs.producer_keeps]
            have h3 := hs.read_keeps w2
            have h2 := hs.obtain_keeps ("lock:" ++ key) (lockTTLMs * millisecond)
              (lockRetryMs * millisecond) lockMaxRetries w1
            have h1 := hs.read_keeps w
            rw [hg2] at h3
            rw [ho] at h2
            rw [hg] at h1
            exact h3.trans (h2.trans h1)
          refine ⟨hv, fun f2 => ?_⟩
          obtain ⟨⟨rest, hr⟩, hc⟩ := miss_invokes_producer env
            (GetOrSetWhenNotExists env c ctx key f w).c ctx key f f2 view hs w
            (GetOrSetWhenNotExists env c ctx key f w).world d0 e0 hv hmiss
          exact ⟨⟨d0, e0, rest, hr⟩, hc⟩

/-- A call on a retaining store that holds `v` under the key returns `v`
without invoking the producer and leaves `v` in place. -/
theorem warm_call {σ : Type} (env : Env σ) (c : cache) (ctx : Context) (key : String)
    (f : Producer σ) (holds : σ → Option Bytes) (hs : RetainingStore env f ctx key holds)
    (w : σ) (v : Bytes) (hw : holds w = some v) :
    (GetOrSetWhenNotExists env c ctx key f w).outcome = .returned v none ∧
    (GetOrSetWhenNotExists env c ctx key f w).trace.countP Event.isProducer = 0 ∧
    holds (GetOrSetWhenNotExists env c ctx key f w).world = some v := by
  have h1 := hs.read_hit w v hw
  have h2 := hs.read_keeps w
  rcases hg : env.rdbGet ctx key w with ⟨⟨d, e⟩, w1⟩
  rw [hg] at h1 h2
  simp only [Prod.mk.injEq] at h1
  obtain ⟨rfl, rfl⟩ := h1
  simp only at h2
  simp [GetOrSetWhenNotExists, lookup, hg, h2, hw, List.countP_cons, Event.isProducer]

/-- On a retaining store, lines 86-98 started without the key invoke the
producer once, return its bytes and leave them under the key. -/
theorem produceAndStore_retained {σ : Type} (env : Env σ) (c : cache) (ctx : Context)
    (key : String) (f : Producer σ) (holds : σ → Option Bytes)
    (hs : RetainingStore env f ctx key holds) (w : σ) (hpos : 0 < drawRange c) :
    ∃ v, (produceAndStore env c ctx key f w).outcome = .returned v none ∧
      (produceAndStore env c ctx key f w).trace.countP Event.isProducer = 1 ∧
      Event.producer v none ∈ (produceAndStore env c ctx key f w).trace ∧
      holds (produceAndStore env c ctx key f w).world = some v := by
  have hn : ¬ drawRange c ≤ 0 := by omega
  have hok := hs.producer_ok w
  rcases hf : f w with ⟨⟨v, pe⟩, w1⟩
  rw [hf] at hok
  simp only at hok
  subst hok
  rcases hi : env.intn (drawRange c) w1 with ⟨r, w2⟩
  have hwr := hs.write_ok w2 v (secondsToDuration (expSeconds c r))
  have hwh := hs.write_holds w2 v (secondsToDuration (expSeconds c r))
  rcases hset : env.rdbSet ctx key v (secondsToDuration (expSeconds c r)) w2 with ⟨se, w3⟩
  rw [hset] at hwr hwh
  simp only at hwr hwh
  subst hwr
  exact ⟨v, by simp [produceAndStore, hf, hn, hi, hset, hwh, List.countP_cons,
    Event.isProducer]⟩

/-- A call on a retaining store without the key, with `0 <= min < max`,
invokes the producer once, returns its bytes and leaves them under the key,
whatever the lock request returns. -/
theorem cold_call {σ : Type} (env : Env σ) (c : cache) (ctx : Context) (key : String)
    (f : Producer σ) (holds : σ → Option Bytes) (hs : RetainingStore env f ctx key holds)
    (w : σ) (hw : holds w = none) (hpos : 0 < drawRange c) :
    ∃ v, (GetOrSetWhenNotExists env c ctx key f w).outcome = .returned v none ∧
      (GetOrSetWhenNotExists env c ctx key f w).trace.countP Event.isProducer = 1 ∧
      Event.producer v none ∈ (GetOrSetWhenNotExists env c ctx key f w).trace ∧
      holds (GetOrSetWhenNotExists env c ctx key f w).world = some v := by
  have h1 := hs.read_miss w hw
  have hk1 := hs.read_keeps w
  rcases hg : env.rdbGet ctx key w with ⟨⟨d0, _ | e0⟩, w1⟩
  · rw [hg] at h1
    exact absurd rfl h1
  · rw [hg] at hk1
    simp only at hk1
    have hk2 := hs.obtain_keeps ("lock:" ++ key) (lockTTLMs * millisecond)
      (lockRetryMs * millisecond) lockMaxRetries w1
    rcases ho : env.obtain ctx ("lock:" ++ key) (lockTTLMs * millisecond)
      (lockRetryMs * millisecond) lockMaxRetries w1 with ⟨⟨lock, lerr⟩, w2⟩
    rw [ho] at hk2
    simp only at hk2
    have hw2 : holds w2 = none := by rw [hk2, hk1, hw]
    cases lock with
    | none =>
      obtain ⟨v, hout, hc, hmem, hh⟩ := produceAndStore_retained env c ctx key f holds hs w2 hpos
      refine ⟨v, ?_, ?_, ?_, ?_⟩
      · simp [GetOrSetWhenNotExists, lookup, missPath, hg, ho, hout]
      · cases lerr <;> by_cases hnil : e0 = GoError.redisNil <;>
          simp [GetOrSetWhenNotExists, lookup, missPath, hg, ho, hnil, hc, List.countP_cons,
            Event.isProducer]
      · simp [GetOrSetWhenNotExists, lookup, missPath, hg, ho, hmem]
      · simp [GetOrSetWhenNotExists, lookup, missPath, hg, ho, hh]
    | some l =>
      have h3 := hs.read_miss w2 hw2
      have hk3 := hs.read_keeps w2
      rcases hg2 : env.rdbGet ctx key w2 with ⟨⟨d1, _ | e1⟩, w3⟩
      · rw [hg2] at h3
        exact absurd rfl h3
      · rw [hg2] at hk3
        simp only at hk3
        obtain ⟨v, hout, hc, hmem, hh⟩ :=
          produceAndStore_retained env c ctx key f holds hs w3 hpos
        refine ⟨v, ?_, ?_, ?_, ?_⟩
        · simp [GetOrSetWhenNotExists, lookup, missPath, underLock, hg, ho, hg2, hout]
        · cases lerr <;> by_cases hnil : e0 = GoError.redisNil <;>
            simp [GetOrSetWhenNotExists, lookup, missPath, underLock, hg, ho, hg2, hnil, hc,
              List.countP_cons, Event.isProducer]
        · simp [GetOrSetWhenNotExists, lookup, missPath, underLock, hg, ho, hg2, hmem]
        · simp [GetOrSetWhenNotExists, lookup, missPath, underLock, hg, ho, hg2,
            hs.release_keeps, hh]

/-- Any number of calls on a retaining store that holds `v` under the key
return `v` each and never invoke the producer. -/
theorem warm_calls {σ : Type} (env : Env σ) (ctx : Context) (key : String)
    (f : Producer σ) (holds : σ → Option Bytes) (hs : RetainingStore env f ctx key holds)
    (v : Bytes) (n : Nat) :
    ∀ (c : cache) (w : σ), holds w = some v →
      (runCalls env ctx key f n c w).outcomes = List.replicate n (.returned v none) ∧
      (runCalls env ctx key f n c w).trace.countP Event.isProducer = 0 ∧
      holds (runCalls env ctx key f n c w).world = some v := by
  induction n with
  | zero =>
    intro c w hw
    simp [runCalls, hw]
  | succ n ih =>
    intro c w hw
    obtain ⟨hout, hc, hh⟩ := warm_call env c ctx key f holds hs w v hw
    obtain ⟨iout, ic, ih2⟩ := ih (GetOrSetWhenNotExists env c ctx key f w).c
      (GetOrSetWhenNotExists env c ctx key f w).world hh
    simp [runCalls, hout, hc, iout, ic, ih2, List.replicate_succ]

/-- C2: on a store that starts without the key, retains what is written and
whose reads and writes do not fail, with `0 <= min < max` (Go `int` values,
so below `2 ^ 63`) and a producer that always succeeds, `n >= 1` calls for the same key run one after another invoke
the producer exactly once, and every call returns the bytes of that one
invocation, whatever the lock requests return.  The store ends holding those
bytes under the key. -/
theorem single_flight_per_key {σ : Type} (env : Env σ) (c : cache) (ctx : Context)
    (key : String) (f : Producer σ) (holds : σ → Option Bytes) (w : σ) (n : Nat)
    (hs : RetainingStore env f ctx key holds) (hcold : holds w = none)
    (hmin : 0 ≤ c.minTimeoutSec) (hlt : c.minTimeoutSec < c.maxTimeoutSec)
    (hmax : c.maxTimeoutSec < 2 ^ 63) (hn : 1 ≤ n) :
    ∃ v, (runCalls env ctx key f n c w).trace.countP Event.isProducer = 1 ∧
      Event.producer v none ∈ (runCalls env ctx key f n c w).trace ∧
      (runCalls env ctx key f n c w).outcomes = List.replicate n (.returned v none) ∧
      holds (runCalls env ctx key f n c w).world = some v := by
  have hpos := (drawRange_of_valid c hmin hlt hmax).2
  obtain ⟨m, rfl⟩ : ∃ m, n = m + 1 := ⟨n - 1, by omega⟩
  obtain ⟨v, hout, hc, hmem, hh⟩ := cold_call env c ctx key f holds hs w hcold hpos
  obtain ⟨iout, ic, ih2⟩ := warm_calls env ctx key f holds hs v m
    (GetOrSetWhenNotExists env c ctx key f w).c (GetOrSetWhenNotExists env c ctx key f w).world hh
  exact ⟨v, by simp [runCalls, hc, ic], by simp [runCalls, hmem],
    by simp [runCalls, hout, iout, List.replicate_succ], by simp [runCalls, ih2]⟩

/-! ## The in-memory store satisfies the assumptions -/

/-- The in-memory store answers reads from its content, and reads, lock
traffic and the failing producer leave the content alone. -/
theorem memEnv_stable :
    StableStore memEnv failingProducer background "k1" (fun w => w.store) where
  read_of_view := by
    intro w w2 h
    have hf : w.find "k1" = w2.find "k1" := by
      simp only [MemWorld.find]
      rw [show w.store = w2.store from h]
    simp only [memEnv, background, hf]
    cases w2.find "k1" <;> rfl
  read_keeps := by
    intro w
    simp only [memEnv, background]
    split <;> rfl
  obtain_keeps := by
    intro lk t b n w
    simp only [memEnv, background]
    split <;> rfl
  release_keeps := by
    intro l w
    rfl
  producer_keeps := by
    intro w
    rfl

/-- The in-memory store retains what is written, its reads and writes do not
fail, and the counting producer succeeds. -/
theorem memEnv_retaining :
    RetainingStore memEnv countingProducer background "k1" (fun w => w.find "k1") where
  read_hit := by
    intro w v h
    simp [memEnv, background, h]
  read_miss := by
    intro w h
    simp [memEnv, background, h]
  read_keeps := by
    intro w
    simp only [memEnv, background]
    split <;> rfl
  write_ok := by
    intro w d x
    rfl
  write_holds := by
    intro w d x
    simp [memEnv, background, MemWorld.find]
  obtain_keeps := by
    intro lk t b n w
    simp only [memEnv, background]
    split <;> rfl
  release_keeps := by
    intro l w
    rfl
  draw_keeps := by
    intro n w
    simp only [memEnv]
    split <;> rfl
  producer_keeps := by
    intro w
    rfl
  producer_ok := by
    intro w
    rfl

/-! ## The theorems at concrete inputs -/

/-- C1 at a store where `"k1"` holds `[9]`. -/
theorem warm_entry_read_through_witness :
    (memEnv.rdbGet background "k1" warmWorld).1 = (some [9], none) ∧
    (GetOrSetWhenNotExists memEnv validCache background "k1" countingProducer
      warmWorld).outcome = .returned (some [9]) none ∧
    (GetOrSetWhenNotExists memEnv validCache background "k1" countingProducer
      warmWorld).trace
      = [.keyMutexLock "k1", .rdbGet "k1" (some [9]) none, .keyMutexUnlock "k1"] ∧
    (GetOrSetWhenNotExists memEnv validCache background "k1" countingProducer
      warmWorld).trace.countP Event.isProducer = 0 ∧
    (GetOrSetWhenNotExists memEnv validCache background "k1" countingProducer
      warmWorld).trace.countP Event.isObtain = 0 ∧
    (GetOrSetWhenNotExists memEnv validCache background "k1" countingProducer
      warmWorld).trace.countP Event.isSet = 0 :=
  ⟨by decide, warm_entry_read_through memEnv validCache background "k1" countingProducer
    warmWorld (some [9]) (by decide)⟩

/-- C2 on the scenario of the specification: five calls for `"k1"` on an
empty store with timeouts 5 and 10. -/
theorem single_flight_per_key_witness :
    ∃ v, (runCalls memEnv background "k1" countingProducer 5 validCache
        coldWorld).trace.countP Event.isProducer = 1 ∧
      Event.producer v none
        ∈ (runCalls memEnv background "k1" countingProducer 5 validCache coldWorld).trace ∧
      (runCalls memEnv background "k1" countingProducer 5 validCache coldWorld).outcomes
        = List.replicate 5 (.returned v none) ∧
      (runCalls memEnv background "k1" countingProducer 5 validCache coldWorld).world.find
        "k1" = some v :=
  single_flight_per_key memEnv validCache background "k1" countingProducer
    (fun w => w.find "k1") coldWorld 5 memEnv_retaining (by decide) (by decide) (by decide)
    (by decide) (by decide)

/-- C3 on an empty store with a lock manager that hands out nothing. -/
theorem lock_unavailable_degrades_witness :
    (GetOrSetWhenNotExists memEnv validCache background "k1" countingProducer
      unlockedWorld).outcome = .returned (some [0]) none ∧
    (GetOrSetWhenNotExists memEnv validCache background "k1" countingProducer
      unlockedWorld).world
      = { store := [("k1", some [0], 7000000000)], locks := [], draws := [12, 3],
          calls := 1 } ∧
    (GetOrSetWhenNotExists memEnv validCache background "k1" countingProducer
      unlockedWorld).trace.countP Event.isProducer = 1 ∧
    (GetOrSetWhenNotExists memEnv validCache background "k1" countingProducer
      unlockedWorld).trace.countP Event.isGet = 1 ∧
    (GetOrSetWhenNotExists memEnv validCache background "k1" countingProducer
      unlockedWorld).trace.countP Event.isSet = 1 ∧
    Event.rdbSet "k1" (some [0]) (secondsToDuration (expSeconds validCache 2)) none
      ∈ (GetOrSetWhenNotExists memEnv validCache background "k1" countingProducer
        unlockedWorld).trace ∧
    (GetOrSetWhenNotExists memEnv validCache background "k1" countingProducer
      unlockedWorld).trace.countP Event.isRelease = 0 :=
  lock_unavailable_degrades memEnv validCache background "k1" countingProducer
    unlockedWorld unlockedWorld unlockedWorld { unlockedWorld with calls := 1 }
    { unlockedWorld with calls := 1, draws := [12, 3] }
    { store := [("k1", some [0], 7000000000)], locks := [], draws := [12, 3], calls := 1 }
    none .redisNil (some (.other "redislock: not obtained")) (some [0]) 2
    (by decide) (by decide) (by decide) (by decide) (by decide) (by decide) (by decide)
    (by decide)

/-- C4 on an empty store with a producer that fails: the call returns the
wrapped error, writes nothing, and a second call misses and invokes its
producer. -/
theorem producer_failure_no_write_witness :
    (GetOrSetWhenNotExists memEnv validCache background "k1" failingProducer
      coldWorld).outcome = .returned none (some (.wrap (.other "boom") "f")) ∧
    (GetOrSetWhenNotExists memEnv validCache background "k1" failingProducer
      coldWorld).trace.countP Event.isSet = 0 ∧
    (GetOrSetWhenNotExists memEnv validCache background "k1" failingProducer
      coldWorld).world.store = coldWorld.store ∧
    (GetOrSetWhenNotExists memEnv
      (GetOrSetWhenNotExists memEnv validCache background "k1" failingProducer coldWorld).c
      background "k1" countingProducer
      (GetOrSetWhenNotExists memEnv validCache background "k1" failingProducer
        coldWorld).world).trace.countP Event.isProducer = 1 :=
  have h := producer_failure_no_write memEnv validCache background "k1" failingProducer
    coldWorld none (.other "boom") (by decide)
  ⟨h.1, h.2.1, (h.2.2 (fun w => w.store) memEnv_stable).1,
    ((h.2.2 (fun w => w.store) memEnv_stable).2 countingProducer).2⟩

/-- C5 on an empty store with a producer that fails. -/
theorem only_two_failures_surface_witness :
    ∃ data err,
      (GetOrSetWhenNotExists memEnv validCache background "k1" failingProducer
        coldWorld).outcome = .returned data err ∧
      (err ≠ none ↔
        ((∃ d e, Event.producer d (some e)
            ∈ (GetOrSetWhenNotExists memEnv validCache background "k1" failingProducer
              coldWorld).trace) ∨
         ((∃ d, Event.producer d none
            ∈ (GetOrSetWhenNotExists memEnv validCache background "k1" failingProducer
              coldWorld).trace) ∧
          ∃ d x e, Event.rdbSet "k1" d x (some e)
            ∈ (GetOrSetWhenNotExists memEnv validCache background "k1" failingProducer
              coldWorld).trace))) ∧
      (err ≠ none → data = none) :=
  have h := only_two_failures_surface memEnv validCache background "k1" failingProducer
    coldWorld (by decide) (by decide) (by decide)
  match h with
  | ⟨data, err, h1, h2, h3, _⟩ => ⟨data, err, h1, h2, h3⟩

/-- C6 on the scenario of the specification: the write of the first call
carries 7 seconds, within `[5, 10)`. -/
theorem ttl_jitter_bounds_witness :
    "k1" = "k1" ∧
    ∃ r, Event.randIntn (validCache.maxTimeoutSec - validCache.minTimeoutSec) r
        ∈ (GetOrSetWhenNotExists memEnv validCache background "k1" countingProducer
          coldWorld).trace ∧
      expSeconds validCache r = validCache.minTimeoutSec + r ∧
      (7000000000 : Int) = secondsToDuration (validCache.minTimeoutSec + r) ∧
      validCache.minTimeoutSec ≤ validCache.minTimeoutSec + r ∧
      validCache.minTimeoutSec + r < validCache.maxTimeoutSec ∧
      (validCache.maxTimeoutSec ≤ 9223372037 →
        (7000000000 : Int) = (validCache.minTimeoutSec + r) * second) :=
  ttl_jitter_bounds memEnv validCache background "k1" countingProducer coldWorld
    (by decide) (by decide) (by decide)
    (by
      intro n r h
      have ht : (GetOrSetWhenNotExists memEnv validCache background "k1" countingProducer
          coldWorld).trace =
          [.keyMutexLock "k1", .rdbGet "k1" none (some .redisNil),
           .obtain "lock:k1" 10000000000 100000000 100
             (some { key := "lock:k1", token := 1 }) none,
           .rdbGet "k1" none (some .redisNil), .producer (some [0]) none,
           .randIntn 5 2, .rdbSet "k1" (some [0]) 7000000000 none,
           .release { key := "lock:k1", token := 1 } none, .keyMutexUnlock "k1"] := by
        decide
      rw [ht] at h
      simp only [List.mem_cons, Event.randIntn.injEq, List.mem_singleton, reduceCtorEq,
        false_or, or_false, List.not_mem_nil] at h
      obtain ⟨rfl, rfl⟩ := h
      decide)
    "k1" (some [0]) 7000000000 none (by decide)

/-- C7 (as amended) at the empty range `min = max = 7`. -/
theorem newCache_accepts_any_range_witness :
    NewCache 7 7 "localhost:6379" =
      { redisAddress := "localhost:6379", minTimeoutSec := 7, maxTimeoutSec := 7,
        keyMutexes := [] } ∧
    drawRange (NewCache 7 7 "localhost:6379") = 7 - 7 ∧
    drawRange (NewCache 7 7 "localhost:6379") ≤ 0 ∧
    (GetOrSetWhenNotExists memEnv (NewCache 7 7 "localhost:6379") background "k1"
      countingProducer coldWorld).outcome = .panicked "invalid argument to Intn" ∧
    (GetOrSetWhenNotExists memEnv (NewCache 7 7 "localhost:6379") background "k1"
      countingProducer coldWorld).trace.countP Event.isDraw = 0 ∧
    (GetOrSetWhenNotExists memEnv (NewCache 7 7 "localhost:6379") background "k1"
      countingProducer coldWorld).trace.countP Event.isSet = 0 :=
  have h := newCache_accepts_any_range memEnv background "k1" countingProducer coldWorld
    7 7 "localhost:6379" (by decide) (by decide)
  ⟨h.1, h.2.1, h.2.2.1, h.2.2.2 (some [0]) (by decide)⟩

/-- C8 (as amended) with a cancelled context and a producer that succeeds. -/
theorem cancelled_context_still_produces_witness :
    (GetOrSetWhenNotExists memEnv validCache cancelledCtx "k1" countingProducer
      coldWorld).trace.countP Event.isProducer = 1 ∧
    (GetOrSetWhenNotExists memEnv validCache cancelledCtx "k1" countingProducer
      coldWorld).outcome = .returned none (some (.wrap .canceled "c.rdb.Set")) ∧
    (GetOrSetWhenNotExists memEnv validCache cancelledCtx "k1" countingProducer
      coldWorld).trace.countP Event.isRelease
      = (GetOrSetWhenNotExists memEnv validCache cancelledCtx "k1" countingProducer
        coldWorld).trace.countP Event.handsLock :=
  have h := cancelled_context_still_produces memEnv validCache cancelledCtx "k1"
    countingProducer coldWorld (by decide) (by decide) (by decide)
    (fun _ _ => rfl) (fun _ _ _ _ _ => rfl) (fun _ _ _ _ => rfl)
  ⟨h.1, h.2.2.1 (some [0]) (by decide), h.2.2.2⟩

/-- C9 twice: with a lock manager that hands out the lock after another
process has stored `[7]`, the call returns `[7]` without producing; with a
lock handed out on a store that still misses, the producer is invoked. -/
theorem double_check_under_lock_witness :
    ((GetOrSetWhenNotExists peerEnv validCache background "k1" countingProducer
        coldWorld).outcome = .returned (some [7]) none ∧
      (GetOrSetWhenNotExists peerEnv validCache background "k1" countingProducer
        coldWorld).trace.countP Event.isProducer = 0 ∧
      (GetOrSetWhenNotExists peerEnv validCache background "k1" countingProducer
        coldWorld).trace.countP Event.isSet = 0) ∧
    ((GetOrSetWhenNotExists memEnv validCache background "k1" countingProducer
        coldWorld).trace.countP Event.isProducer = 1 ∧
      Event.producer (some [0]) none
        ∈ (GetOrSetWhenNotExists memEnv validCache background "k1" countingProducer
          coldWorld).trace) :=
  ⟨(double_check_under_lock peerEnv validCache background "k1" countingProducer coldWorld
      coldWorld { coldWorld with store := [("k1", some [7], 8000000000)] } none .redisNil
      { key := "lock:k1", token := 2 } none (by decide) (by decide)).1 (some [7])
      (by decide),
   (double_check_under_lock memEnv validCache background "k1" countingProducer coldWorld
      coldWorld { coldWorld with locks := [(none, none), (none, some (.other "redis down"))] }
      none .redisNil { key := "lock:k1", token := 1 } none (by decide) (by decide)).2
      none .redisNil (by decide)⟩

end Cache
